import Mathlib

/-!
Verification of the personal-finance tracker (balance manager, expense
tracker, savings goals, budgets) against its natural-language specification.

The Python modules are embedded shallowly:
* amounts and balances are rationals (`ℚ`) — the claims under scrutiny are
  exact-arithmetic facts (sums, differences, order comparisons);
* the persisted JSON stores (`balance.json`, `expenses.json`, `goals.json`,
  `budgets.json`) become explicit values threaded through the functions; a
  function that ends in `save_*` returns the new store;
* a `YYYY-MM-DD` date string is represented by its parse result: `some d`
  (with `d : Nat` a day number, order-preserving) when `datetime.strptime`
  succeeds, `none` when it raises `ValueError`;
* a raised Python exception becomes `Except.error` carrying an error value
  mirroring the exception raised by the source.
-/

/-- Errors raised by `balance_manager.py`: `subtract_from_balance` raises
`ValueError("Insufficient balance")` when the new balance would be negative. -/
inductive BalanceError where
  | insufficientBalance
deriving DecidableEq, Repr

/-- Embeds `balance_manager.subtract_from_balance`: compute `current - amount`;
raise if negative, otherwise persist and return the new balance. -/
def subtract_from_balance (current_balance amount : ℚ) : Except BalanceError ℚ :=
  let new_balance := current_balance - amount
  if new_balance < 0 then Except.error BalanceError.insufficientBalance
  else Except.ok new_balance

/-- Embeds `balance_manager.add_to_balance`: unconditionally persist
`current + amount` and return it. -/
def add_to_balance (current_balance amount : ℚ) : ℚ :=
  current_balance + amount

/-- One record of `expenses.json` (`tracker.py`). `date` is the parse
result of the stored date string (`none` for an unparseable string). -/
structure Expense where
  date : Option Nat
  category : String
  amount : ℚ
  note : String
deriving DecidableEq, Repr

/-- The state `tracker.py` operates on: the stored balance
(`balance.json`) and the stored expense list (`expenses.json`). -/
structure TrackerState where
  balance : ℚ
  expenses : List Expense
deriving DecidableEq, Repr

/-- Exceptions raised by `tracker.py`: `add_expense` re-raises a balance
failure as `ValueError("Cannot add expense: ...")`; `edit_expense` re-raises
one as `RuntimeError("Failed to adjust balance for edited expense: ...")`. -/
inductive TrackerError where
  | cannotAddExpense (e : BalanceError)
  | failedToAdjustBalance (e : BalanceError)
deriving DecidableEq, Repr

/-- Embeds `tracker.add_expense`: build the record `{today, category, amount, note}`;
if `deduct_from_balance`, call `subtract_from_balance amount` first and abort
on its failure; then append the record and persist. -/
def add_expense (s : TrackerState) (today : Nat) (category : String) (amount : ℚ)
    (note : String) (deduct_from_balance : Bool) : Except TrackerError TrackerState :=
  let expense : Expense :=
    { date := some today, category := category, amount := amount, note := note }
  let balanceStep : Except TrackerError ℚ :=
    if deduct_from_balance then
      match subtract_from_balance s.balance amount with
      | Except.error e => Except.error (TrackerError.cannotAddExpense e)
      | Except.ok b => Except.ok b
    else Except.ok s.balance
  match balanceStep with
  | Except.error e => Except.error e
  | Except.ok b => Except.ok { balance := b, expenses := s.expenses ++ [expense] }

/-- Embeds `tracker.delete_expense`: if the index is in range, first restore the
record's amount via `add_to_balance` (total in this embedding), then remove
the record and persist, returning `true`; otherwise return `false`. -/
def delete_expense (s : TrackerState) (expense_index : Nat) : TrackerState × Bool :=
  if h : expense_index < s.expenses.length then
    let amount := (s.expenses.get ⟨expense_index, h⟩).amount
    ({ balance := add_to_balance s.balance amount,
       expenses := s.expenses.eraseIdx expense_index }, true)
  else (s, false)

/-- The tail of `tracker.edit_expense`: the in-place updates
`expenses[i]["category"] = category` and `expenses[i]["note"] = note`,
each applied only when the optional argument was given. -/
def applyEdits (r : Expense) (category : Option String) (note : Option String) : Expense :=
  let rec2 := match category with
    | some c => { r with category := c }
    | none => r
  match note with
  | some n => { rec2 with note := n }
  | none => rec2

/-- Embeds `tracker.edit_expense`: if the index is in range and the amount is
changing, adjust the balance first (debit the positive difference or credit
the negative one), aborting the whole edit if the debit fails; only then
update the record's fields and persist. -/
def edit_expense (s : TrackerState) (expense_index : Nat) (category : Option String)
    (amount : Option ℚ) (note : Option String) :
    Except TrackerError (TrackerState × Bool) :=
  if h : expense_index < s.expenses.length then
    let current := s.expenses.get ⟨expense_index, h⟩
    let old_amount := current.amount
    let balanceStep : Except TrackerError (ℚ × Expense) :=
      match amount with
      | some a =>
        if a ≠ old_amount then
          if a > old_amount then
            match subtract_from_balance s.balance (a - old_amount) with
            | Except.error e => Except.error (TrackerError.failedToAdjustBalance e)
            | Except.ok b => Except.ok (b, { current with amount := a })
          else
            Except.ok (add_to_balance s.balance (old_amount - a),
              { current with amount := a })
        else Except.ok (s.balance, current)
      | none => Except.ok (s.balance, current)
    match balanceStep with
    | Except.error e => Except.error e
    | Except.ok (b, rec1) =>
      Except.ok
        (TrackerState.mk b (s.expenses.set expense_index (applyEdits rec1 category note)),
          true)
  else Except.ok (s, false)

/-- Sum of the amounts of the expense records currently in the ledger
(`tracker.get_total_spent` over a given list). -/
def sumAmounts (expenses : List Expense) : ℚ :=
  (expenses.map Expense.amount).sum

/-- One ledger operation of the sequences quantified over in the spec's
invariant: `add` (with `deduct_from_balance=true`), `delete`, or `edit`. -/
inductive TrackerOp where
  | addOp (today : Nat) (category : String) (amount : ℚ) (note : String)
  | deleteOp (expense_index : Nat)
  | editOp (expense_index : Nat) (category : Option String)
      (amount : Option ℚ) (note : Option String)
deriving Repr

/-- Apply one operation; a raised exception aborts the run. -/
def applyOp (s : TrackerState) (op : TrackerOp) : Except TrackerError TrackerState :=
  match op with
  | TrackerOp.addOp today c a n => add_expense s today c a n true
  | TrackerOp.deleteOp i => Except.ok (delete_expense s i).1
  | TrackerOp.editOp i c a n =>
    match edit_expense s i c a n with
    | Except.error e => Except.error e
    | Except.ok (s1, _) => Except.ok s1

/-- Run a sequence of ledger operations from a starting state. -/
def runOps (s : TrackerState) (ops : List TrackerOp) : Except TrackerError TrackerState :=
  match ops with
  | [] => Except.ok s
  | op :: rest =>
    match applyOp s op with
    | Except.error e => Except.error e
    | Except.ok s1 => runOps s1 rest

/-- Goal status strings of `goals.py`: "active", "completed", "cancelled". -/
inductive GoalStatus where
  | active
  | completed
  | cancelled
deriving DecidableEq, Repr

/-- One record of `goals.json` (`goals.py`). The `completed_date` /
`cancelled_date` keys are absent (`none`) until the corresponding
transition stamps them. -/
structure Goal where
  id : Int
  name : String
  target_amount : ℚ
  current_amount : ℚ
  deadline : Option String
  created_date : Nat
  status : GoalStatus
  lock_amount : Bool
  completed_date : Option Nat
  cancelled_date : Option Nat
deriving DecidableEq, Repr

/-- Embeds `goals.add_goal`: build a goal with `id = len(goals) + 1`, status
active, `current_amount = 0`, append it and persist; return the stored
list and the created goal. -/
def add_goal (goals : List Goal) (today : Nat) (name : String) (target_amount : ℚ)
    (deadline : Option String) (lock_amount : Bool) : List Goal × Goal :=
  let goal : Goal :=
    { id := (goals.length : Int) + 1, name := name, target_amount := target_amount,
      current_amount := 0, deadline := deadline, created_date := today,
      status := GoalStatus.active, lock_amount := lock_amount,
      completed_date := none, cancelled_date := none }
  (goals ++ [goal], goal)

/-- Embeds `goals.update_goal_progress`: scan for the first goal with the given id
AND status active; add the amount to its `current_amount`; if the new
`current_amount` reaches `target_amount`, flip status to completed and stamp
the completion date; persist; return the updated goal (`none` if no
active goal with that id exists). -/
def update_goal_progress (goals : List Goal) (today : Nat) (goal_id : Int)
    (amount_to_add : ℚ) : List Goal × Option Goal :=
  match goals with
  | [] => ([], none)
  | g :: rest =>
    if g.id = goal_id ∧ g.status = GoalStatus.active then
      let g1 := { g with current_amount := g.current_amount + amount_to_add }
      let g2 :=
        if g1.current_amount ≥ g1.target_amount then
          { g1 with status := GoalStatus.completed, completed_date := some today }
        else g1
      (g2 :: rest, some g2)
    else
      let r := update_goal_progress rest today goal_id amount_to_add
      (g :: r.1, r.2)

/-- Embeds `goals.cancel_goal`: scan for the first goal with the given id (its
current status is NOT examined), set its status to cancelled, stamp the
cancellation date, persist, and return `true`; `false` if no goal has the id. -/
def cancel_goal (goals : List Goal) (today : Nat) (goal_id : Int) : List Goal × Bool :=
  match goals with
  | [] => ([], false)
  | g :: rest =>
    if g.id = goal_id then
      ({ g with status := GoalStatus.cancelled, cancelled_date := some today } :: rest, true)
    else
      let r := cancel_goal rest today goal_id
      (g :: r.1, r.2)

/-- An argument that Python would receive as either an `int` or a `str`
(the duck-typed id-or-name parameter of `delete_goal` / `delete_budget`). -/
inductive PyKey where
  | int (n : Int)
  | str (s : String)
deriving DecidableEq, Repr

/-- Python `str.isdigit` restricted to ASCII digit strings: nonempty and
every character a digit. -/
def pyIsDigit (s : String) : Bool :=
  !s.isEmpty && s.toList.all Char.isDigit

/-- Embeds `goals.delete_goal`: dispatch on the argument (int → match ids;
all-digit string → convert with `int(...)` and match ids; other string →
match names); drop every matching goal; persist and return `true` when the
list shrank, else return `false` with the store untouched. -/
def delete_goal (goals : List Goal) (goal_id : PyKey) : List Goal × Bool :=
  let initial_length := goals.length
  let match_by : Sum Int String :=
    match goal_id with
    | PyKey.str s => if pyIsDigit s then Sum.inl ((s.toNat?.getD 0 : Nat) : Int) else Sum.inr s
    | PyKey.int n => Sum.inl n
  let goals2 :=
    match match_by with
    | Sum.inl i => goals.filter (fun g => g.id ≠ i)
    | Sum.inr name => goals.filter (fun g => g.name ≠ name)
  if goals2.length < initial_length then (goals2, true) else (goals, false)

/-- Fold a list of `(name, target_amount)` pairs into `add_goal` calls
(the delete-free creation histories quantified over in the data-model claim). -/
def runAdds (goals : List Goal) (ps : List (String × ℚ)) : List Goal :=
  ps.foldl (fun gs p => (add_goal gs 0 p.1 p.2 none false).1) goals

/-- Budget status strings of `budgets.py`: "active", "expired". -/
inductive BudgetStatus where
  | active
  | expired
deriving DecidableEq, Repr

/-- One record of `budgets.json` (`budgets.py`). `start_date` / `end_date`
are the parse results of the stored `YYYY-MM-DD` strings (`none` for an
unparseable string). -/
structure Budget where
  id : Int
  category : String
  amount : ℚ
  period : String
  start_date : Option Nat
  end_date : Option Nat
  alert_threshold : ℚ
  status : BudgetStatus
  created_date : Nat
deriving DecidableEq, Repr

/-- Embeds `budgets.get_active_budgets`: one pass over the stored list. A budget
with status active whose `end_date` parses to a day not before today is
collected into the returned list; one whose `end_date` parses to a day
before today is marked expired in the stored list; a `ValueError` while
parsing is swallowed (the budget stays active and is not collected).
The whole (possibly updated) list is re-saved. Returns
(saved list, returned active list). -/
def get_active_budgets (budgets : List Budget) (today : Nat) : List Budget × List Budget :=
  match budgets with
  | [] => ([], [])
  | b :: rest =>
    let r := get_active_budgets rest today
    if b.status = BudgetStatus.active then
      match b.end_date with
      | some ed =>
        if ed ≥ today then (b :: r.1, b :: r.2)
        else ({ b with status := BudgetStatus.expired } :: r.1, r.2)
      | none => (b :: r.1, r.2)
    else (b :: r.1, r.2)

/-- The accumulator loop of `budgets.calculate_spending_for_budget`:
for each expense, skip it when its date string fails to parse; otherwise,
when the date lies in `[start_date, end_date]` and the budget is "Overall"
or the categories match, add its amount to the running total. -/
def spendLoop (sd ed : Nat) (category : String) : List Expense → ℚ → ℚ
  | [], total_spent => total_spent
  | e :: rest, total_spent =>
    match e.date with
    | some d =>
      if sd ≤ d ∧ d ≤ ed then
        if category = "Overall" ∨ e.category = category then
          spendLoop sd ed category rest (total_spent + e.amount)
        else spendLoop sd ed category rest total_spent
      else spendLoop sd ed category rest total_spent
    | none => spendLoop sd ed category rest total_spent

/-- Embeds `budgets.calculate_spending_for_budget`: parse the budget's own date
window (returning 0 if either bound fails to parse), then run the
accumulator loop over the expense list starting from 0. -/
def calculate_spending_for_budget (expenses : List Expense) (budget : Budget) : ℚ :=
  match budget.start_date, budget.end_date with
  | some sd, some ed => spendLoop sd ed budget.category expenses 0
  | _, _ => 0

/-- The classification levels of `budgets.get_budget_status`. -/
inductive StatusLevel where
  | safe
  | caution
  | warning
  | exceeded
deriving DecidableEq, Repr

/-- The dictionary returned by `budgets.get_budget_status`. -/
structure BudgetStatusResult where
  spent : ℚ
  budget_amount : ℚ
  percentage : ℚ
  remaining : ℚ
  status_level : StatusLevel
  is_exceeded : Bool
deriving DecidableEq, Repr

/-- Embeds `budgets.get_budget_status`: spent from
`calculate_spending_for_budget`; `percentage = spent / amount * 100` when
the amount is positive, else 0; `remaining = max 0 (amount - spent)`;
level exceeded at ≥ 100%, warning at ≥ alert_threshold, caution at
≥ alert_threshold·0.5, else safe; `is_exceeded` iff percentage ≥ 100. -/
def get_budget_status (expenses : List Expense) (budget : Budget) : BudgetStatusResult :=
  let spent := calculate_spending_for_budget expenses budget
  let budget_amount := budget.amount
  let percentage := if budget_amount > 0 then spent / budget_amount * 100 else 0
  let remaining := max 0 (budget_amount - spent)
  let alert_threshold := budget.alert_threshold
  let status_level :=
    if percentage ≥ 100 then StatusLevel.exceeded
    else if percentage ≥ alert_threshold then StatusLevel.warning
    else if percentage ≥ alert_threshold * (1 / 2) then StatusLevel.caution
    else StatusLevel.safe
  { spent := spent, budget_amount := budget_amount, percentage := percentage,
    remaining := remaining, status_level := status_level,
    is_exceeded := decide (percentage ≥ 100) }

/-- Embeds `budgets.delete_budget`: same duck-typed dispatch as `delete_goal`,
matching ids for an int / all-digit string and categories for any other
string; drops every match. -/
def delete_budget (budgets : List Budget) (budget_id : PyKey) : List Budget × Bool :=
  let initial_length := budgets.length
  let match_by : Sum Int String :=
    match budget_id with
    | PyKey.str s => if pyIsDigit s then Sum.inl ((s.toNat?.getD 0 : Nat) : Int) else Sum.inr s
    | PyKey.int n => Sum.inl n
  let budgets2 :=
    match match_by with
    | Sum.inl i => budgets.filter (fun b => b.id ≠ i)
    | Sum.inr category => budgets.filter (fun b => b.category ≠ category)
  if budgets2.length < initial_length then (budgets2, true) else (budgets, false)

/-- The spend that C8 describes, written from the claim's words: the sum of
the amounts of exactly those expense records whose (parseable) date lies in
`[sd, ed]` and whose category equals the budget's category, or all records
when the budget's category is "Overall", records with unparseable dates
skipped. Used to compare `calculate_spending_for_budget` against the spec. -/
def spendSpec (expenses : List Expense) (sd ed : Nat) (category : String) : ℚ :=
  ((expenses.filter (fun e =>
      match e.date with
      | some d => decide (sd ≤ d) && decide (d ≤ ed) &&
          (category == "Overall" || e.category == category)
      | none => false)).map Expense.amount).sum

/-- The sequential ids 1, 2, ..., n (as Python ints) that the data-model
claim asserts for the goals store. -/
def seqIds (n : Nat) : List Int :=
  (List.range' 1 n).map Int.ofNat

/-- The condition, written from the C10 claim's words, under which
`get_active_budgets` marks a budget expired: it is active and its end date
parses to a day strictly before today. -/
def budgetExpiredBy (today : Nat) (b : Budget) : Bool :=
  decide (b.status = BudgetStatus.active) &&
    (match b.end_date with
     | some ed => decide (ed < today)
     | none => false)

/-- The condition, written from the C10 claim's words, under which
`get_active_budgets` returns a budget: it is active and its end date parses
to a day on or after today (a budget with an unparseable end date is
excluded even though it stays active). -/
def budgetActiveOn (today : Nat) (b : Budget) : Bool :=
  decide (b.status = BudgetStatus.active) &&
    (match b.end_date with
     | some ed => decide (today ≤ ed)
     | none => false)

theorem sumAmounts_nil : sumAmounts [] = 0 := rfl

theorem sumAmounts_cons (e : Expense) (es : List Expense) :
    sumAmounts (e :: es) = e.amount + sumAmounts es := by
  simp [sumAmounts]

theorem sumAmounts_append (es fs : List Expense) :
    sumAmounts (es ++ fs) = sumAmounts es + sumAmounts fs := by
  simp [sumAmounts]

theorem sumAmounts_eraseIdx :
    ∀ (es : List Expense) (i : Nat) (h : i < es.length),
      sumAmounts (es.eraseIdx i) = sumAmounts es - (es.get ⟨i, h⟩).amount
  | [], i, h => absurd h (Nat.not_lt_zero i)
  | e :: rest, 0, _ => by simp [List.eraseIdx, sumAmounts_cons]
  | e :: rest, i + 1, h => by
    have hi : i < rest.length := Nat.lt_of_succ_lt_succ h
    simp only [List.eraseIdx, sumAmounts_cons, List.get]
    rw [sumAmounts_eraseIdx rest i hi]
    ring

theorem sumAmounts_set :
    ∀ (es : List Expense) (i : Nat) (h : i < es.length) (r : Expense),
      sumAmounts (es.set i r) = sumAmounts es - (es.get ⟨i, h⟩).amount + r.amount
  | [], i, h, _ => absurd h (Nat.not_lt_zero i)
  | e :: rest, 0, _, r => by simp [List.set, sumAmounts_cons]; ring
  | e :: rest, i + 1, h, r => by
    have hi : i < rest.length := Nat.lt_of_succ_lt_succ h
    simp only [List.set, sumAmounts_cons, List.get]
    rw [sumAmounts_set rest i hi r]
    ring

/-- The C1 invariant: the stored balance equals the initial balance minus
the total amount of the expense records currently present. -/
def BalanceInv (b0 : ℚ) (s : TrackerState) : Prop :=
  s.balance = b0 - sumAmounts s.expenses

theorem add_expense_ok (s : TrackerState) (today : Nat) (c : String) (a : ℚ)
    (n : String) (s1 : TrackerState)
    (h : add_expense s today c a n true = Except.ok s1) :
    s1.balance = s.balance - a ∧
      s1.expenses = s.expenses ++ [⟨some today, c, a, n⟩] := by
  unfold add_expense subtract_from_balance at h
  by_cases hlt : s.balance - a < 0
  · simp [hlt] at h
  · simp only [hlt, if_true, if_false, ite_false, ite_true, Bool.true_eq,
      Except.ok.injEq] at h
    rw [← h]
    exact ⟨rfl, rfl⟩

theorem applyEdits_amount (r : Expense) (c n : Option String) :
    (applyEdits r c n).amount = r.amount := by
  cases c <;> cases n <;> rfl

theorem edit_expense_ok_shape (s : TrackerState) (i : Nat) (hi : i < s.expenses.length)
    (c : Option String) (a : Option ℚ) (n : Option String) (s1 : TrackerState) (bl : Bool)
    (h : edit_expense s i c a n = Except.ok (s1, bl)) :
    ∃ r : Expense, s1.expenses = s.expenses.set i r ∧
      s1.balance = s.balance - (r.amount - (s.expenses.get ⟨i, hi⟩).amount) := by
  unfold edit_expense at h
  simp only [hi, dif_pos] at h
  set current := s.expenses.get ⟨i, hi⟩ with hcur
  rcases a with _ | av
  · simp only [Except.ok.injEq, Prod.mk.injEq] at h
    obtain ⟨h1, -⟩ := h
    exact ⟨applyEdits current c n, by rw [← h1],
      by rw [← h1]; simp [applyEdits_amount]⟩
  · by_cases hne : av ≠ current.amount
    · by_cases hgt : av > current.amount
      · by_cases hins : s.balance - (av - current.amount) < 0
        · simp [subtract_from_balance, hne, hgt, hins] at h
        · simp only [subtract_from_balance, hne, hgt, hins, ite_true, ite_false,
            if_true, if_false, ne_eq, not_false_iff, Except.ok.injEq,
            Prod.mk.injEq] at h
          obtain ⟨h1, -⟩ := h
          exact ⟨applyEdits { current with amount := av } c n, by rw [← h1],
            by rw [← h1]; simp [applyEdits_amount]⟩
      · simp only [hne, hgt, ite_true, ite_false, if_true, if_false, ne_eq,
          not_false_iff, add_to_balance, Except.ok.injEq, Prod.mk.injEq] at h
        obtain ⟨h1, -⟩ := h
        exact ⟨applyEdits { current with amount := av } c n, by rw [← h1],
          by rw [← h1]; simp [applyEdits_amount]; ring⟩
    · simp only [hne, ite_false, if_false, ne_eq, not_false_iff, not_not,
        Except.ok.injEq, Prod.mk.injEq] at h
      obtain ⟨h1, -⟩ := h
      exact ⟨applyEdits current c n, by rw [← h1],
        by rw [← h1]; simp [applyEdits_amount]⟩

theorem applyOp_preserves_inv (b0 : ℚ) (s s1 : TrackerState) (op : TrackerOp)
    (hinv : BalanceInv b0 s) (h : applyOp s op = Except.ok s1) : BalanceInv b0 s1 := by
  unfold BalanceInv at hinv ⊢
  cases op with
  | addOp today c a n =>
    simp only [applyOp] at h
    obtain ⟨hb, he⟩ := add_expense_ok s today c a n s1 h
    rw [hb, he, sumAmounts_append, sumAmounts_cons, sumAmounts_nil, hinv]
    ring
  | deleteOp i =>
    simp only [applyOp, Except.ok.injEq] at h
    rw [← h]
    unfold delete_expense
    by_cases hi : i < s.expenses.length
    · simp only [hi, dif_pos]
      simp only [add_to_balance]
      rw [sumAmounts_eraseIdx s.expenses i hi, hinv]
      ring
    · simp only [hi, dif_neg, not_false_iff]
      exact hinv
  | editOp i c a n =>
    simp only [applyOp] at h
    by_cases hi : i < s.expenses.length
    · rcases hr : edit_expense s i c a n with _ | ⟨s2, bl⟩
      · rw [hr] at h; exact absurd h (by simp)
      · rw [hr] at h
        simp only [Except.ok.injEq] at h
        obtain ⟨r, he, hb⟩ := edit_expense_ok_shape s i hi c a n s2 bl hr
        rw [← h, hb, he, sumAmounts_set s.expenses i hi r, hinv]
        ring
    · unfold edit_expense at h
      simp only [hi, dif_neg, not_false_iff, Except.ok.injEq] at h
      rw [← h]
      exact hinv

theorem runOps_preserves_inv (b0 : ℚ) :
    ∀ (ops : List TrackerOp) (s t : TrackerState),
      BalanceInv b0 s → runOps s ops = Except.ok t → BalanceInv b0 t
  | [], s, t, hinv, h => by
    simp only [runOps, Except.ok.injEq] at h
    exact h ▸ hinv
  | op :: rest, s, t, hinv, h => by
    simp only [runOps] at h
    rcases ha : applyOp s op with _ | s1
    · rw [ha] at h; exact absurd h (by simp)
    · rw [ha] at h
      exact runOps_preserves_inv b0 rest s1 t
        (applyOp_preserves_inv b0 s s1 op hinv ha) h

/-- C1: for every initial balance and every sequence of successful `add`
(with `deduct_from_balance=true`), `delete`, and `edit` operations on the
expense ledger, after each operation the stored balance equals the initial
balance minus the sum of the amounts of the expense records currently
present. (Quantifying over all operation lists covers every prefix, i.e.
the state after each operation of a longer run.) -/
theorem balance_ledger_invariant (b0 : ℚ) (ops : List TrackerOp) (s : TrackerState)
    (h : runOps ⟨b0, []⟩ ops = Except.ok s) :
    s.balance = b0 - sumAmounts s.expenses :=
  runOps_preserves_inv b0 ops ⟨b0, []⟩ s (by simp [BalanceInv, sumAmounts]) h

/-- Witness for C1: balance 1000, add 200 for Food, then delete it:
the run succeeds and the final state satisfies the invariant. -/
theorem balance_ledger_invariant_witness :
    (TrackerState.mk 1000 []).balance =
      1000 - sumAmounts (TrackerState.mk 1000 []).expenses :=
  balance_ledger_invariant 1000
    [TrackerOp.addOp 1 "Food" 200 "lunch", TrackerOp.deleteOp 0] ⟨1000, []⟩
    (by norm_num [runOps, applyOp, add_expense, subtract_from_balance,
      delete_expense, add_to_balance])

/-- C2 counterexample: the ledger `add` operation does NOT reject a
non-positive amount. With balance 0, `add("Food", -5)` succeeds: the record
is appended and the balance grows to 5 (subtracting a negative amount can
never trip the insufficient-balance check), contradicting the claim that
every `amount ≤ 0` fails with `InvalidAmount` leaving balance and ledger
unchanged. -/
theorem add_expense_nonpositive_not_rejected :
    add_expense ⟨0, []⟩ 0 "Food" (-5) "" true =
      Except.ok ⟨5, [⟨some 0, "Food", -5, ""⟩]⟩ := by
  norm_num [add_expense, subtract_from_balance]

/-- C2 amended: `tracker.add_expense` performs no amount validation (the
only `amount > 0` check lives in the GUI layer). For every amount ≤ 0 and
every nonnegative balance, the call succeeds with `deduct_from_balance=true`:
the record is appended and the stored balance becomes `b - a ≥ b`. -/
theorem add_expense_nonpositive_succeeds (b : ℚ) (es : List Expense) (today : Nat)
    (c : String) (a : ℚ) (n : String) (ha : a ≤ 0) (hb : 0 ≤ b) :
    add_expense ⟨b, es⟩ today c a n true =
      Except.ok ⟨b - a, es ++ [⟨some today, c, a, n⟩]⟩ := by
  unfold add_expense subtract_from_balance
  have hnl : ¬(b - a < 0) := by push_neg; linarith
  simp [hnl]

/-- Witness for the amended C2 at balance 0 and amount -5. -/
theorem add_expense_nonpositive_succeeds_witness :
    add_expense ⟨0, []⟩ 3 "Food" (-5) "" true =
      Except.ok ⟨0 - (-5), [] ++ [⟨some 3, "Food", -5, ""⟩]⟩ :=
  add_expense_nonpositive_succeeds 0 [] 3 "Food" (-5) "" (by norm_num) (by norm_num)

/-- C3: for every balance b and debit amount a with a > b,
`subtract_from_balance` signals the insufficient-balance error (so the
stored balance is never overwritten on that path), and every balance it
does persist is nonnegative. -/
theorem debit_insufficient_funds (current_balance amount : ℚ) :
    (current_balance < amount →
      subtract_from_balance current_balance amount =
        Except.error BalanceError.insufficientBalance) ∧
    (∀ r : ℚ, subtract_from_balance current_balance amount = Except.ok r → 0 ≤ r) := by
  constructor
  · intro h
    unfold subtract_from_balance
    rw [if_pos (by linarith)]
  · intro r h
    unfold subtract_from_balance at h
    by_cases hlt : current_balance - amount < 0
    · simp [hlt] at h
    · simp only [hlt, if_neg, not_false_iff, if_false, ite_false, Except.ok.injEq] at h
      linarith

/-- Witness for C3: debiting 150 from a balance of 100 signals the error. -/
theorem debit_insufficient_funds_witness :
    subtract_from_balance 100 150 = Except.error BalanceError.insufficientBalance :=
  (debit_insufficient_funds 100 150).1 (by norm_num)

/-- C4: editing an in-range record to a larger amount whose increase
exceeds the current balance raises the wrapped insufficient-balance error;
since the error path returns before any store is written, the record (and
every other field) is left exactly as it was — the embedding's error result
carries no successor state. -/
theorem edit_expense_insufficient_funds (s : TrackerState) (i : Nat)
    (hi : i < s.expenses.length) (c : Option String) (n : Option String) (new : ℚ)
    (hgt : (s.expenses.get ⟨i, hi⟩).amount < new)
    (hbal : s.balance < new - (s.expenses.get ⟨i, hi⟩).amount) :
    edit_expense s i c (some new) n =
      Except.error (TrackerError.failedToAdjustBalance BalanceError.insufficientBalance) := by
  unfold edit_expense subtract_from_balance
  simp only [hi, dif_pos]
  have hne : new ≠ (s.expenses.get ⟨i, hi⟩).amount := ne_of_gt hgt
  have hins : s.balance - (new - (s.expenses.get ⟨i, hi⟩).amount) < 0 := by linarith
  simp only [List.get_eq_getElem] at hne hgt hins
  simp [hne, hgt, hins]

/-- Witness for C4: balance 10, one record of amount 100, editing it to 200
(an increase of 190 > 10) fails with the insufficient-balance error. -/
theorem edit_expense_insufficient_funds_witness :
    edit_expense ⟨10, [⟨some 0, "Food", 100, ""⟩]⟩ 0 none (some 200) none =
      Except.error (TrackerError.failedToAdjustBalance BalanceError.insufficientBalance) :=
  edit_expense_insufficient_funds ⟨10, [⟨some 0, "Food", 100, ""⟩]⟩ 0
    (by norm_num) none none 200
    (by show (100 : ℚ) < 200; norm_num)
    (by show (10 : ℚ) < 200 - 100; norm_num)

/-- C5 counterexample: `cancel_goal` never inspects the goal's status, so
"completed" is not terminal. Cancelling an already-completed goal (id 1,
status completed) mutates it to cancelled, stamps the cancellation date and
returns `true`, contradicting the claim that cancel on an already
completed/cancelled goal returns false and changes nothing. -/
theorem cancel_goal_cancels_completed_goal :
    cancel_goal
        [⟨1, "Trip", 500, 600, none, 0, GoalStatus.completed, false, some 0, none⟩] 5 1 =
      ([⟨1, "Trip", 500, 600, none, 0, GoalStatus.cancelled, false, some 0, some 5⟩],
        true) := by
  simp [cancel_goal]

/-- C5 amended: the complete transition behavior of the two goal mutators.
`update_goal_progress` changes nothing (and returns none) when no goal is
both id-matching and active — in particular it never modifies a completed
or cancelled goal — and otherwise updates exactly the first such goal,
whose only possible status transition is active→completed (stamping the
completion date) when `current_amount + amount ≥ target_amount`.
`cancel_goal` sets the FIRST goal carrying the requested id to cancelled
and stamps its cancellation date, changing no other field and no other
goal, and returns true REGARDLESS of that goal's previous status —
completed and cancelled are not terminal against cancel; it returns false
with the store unchanged only when no goal has the id. -/
theorem goal_status_transitions (today : Nat) (gid : Int) (a : ℚ) :
    (∀ goals : List Goal, (∀ g ∈ goals, g.id ≠ gid) →
      cancel_goal goals today gid = (goals, false)) ∧
    (∀ (pre post : List Goal) (g : Goal), (∀ p ∈ pre, p.id ≠ gid) → g.id = gid →
      cancel_goal (pre ++ g :: post) today gid =
        (pre ++ { g with status := GoalStatus.cancelled, cancelled_date := some today } :: post, true)) ∧
    (∀ goals : List Goal, (∀ g ∈ goals, ¬(g.id = gid ∧ g.status = GoalStatus.active)) →
      update_goal_progress goals today gid a = (goals, none)) ∧
    (∀ (pre post : List Goal) (g g2 : Goal),
      (∀ p ∈ pre, ¬(p.id = gid ∧ p.status = GoalStatus.active)) → g.id = gid →
      g.status = GoalStatus.active →
      g2 = (if g.target_amount ≤ g.current_amount + a then { g with current_amount := g.current_amount + a, status := GoalStatus.completed, completed_date := some today } else { g with current_amount := g.current_amount + a }) →
      update_goal_progress (pre ++ g :: post) today gid a = (pre ++ g2 :: post, some g2)) := by
  refine ⟨?_, ?_, ?_, ?_⟩
  · intro goals
    induction goals with
    | nil => intro _; rfl
    | cons g rest ih =>
      intro hall
      have hrest := ih (fun x hx => hall x (List.mem_cons_of_mem g hx))
      unfold cancel_goal
      rw [if_neg (hall g (List.mem_cons_self g rest)), hrest]
  · intro pre
    induction pre with
    | nil =>
      intro post g _ hgid
      simp only [List.nil_append]
      unfold cancel_goal
      rw [if_pos hgid]
    | cons p rest ih =>
      intro post g hpre hgid
      have hp : p.id ≠ gid := hpre p (List.mem_cons_self p rest)
      have hih := ih post g (fun x hx => hpre x (List.mem_cons_of_mem p hx)) hgid
      simp only [List.cons_append]
      unfold cancel_goal
      rw [if_neg hp]
      simp only [List.append_eq] at hih ⊢
      rw [hih]
  · intro goals
    induction goals with
    | nil => intro _; rfl
    | cons g rest ih =>
      intro hall
      have hrest := ih (fun x hx => hall x (List.mem_cons_of_mem g hx))
      unfold update_goal_progress
      rw [if_neg (hall g (List.mem_cons_self g rest)), hrest]
  · intro pre
    induction pre with
    | nil =>
      intro post g g2 _ hgid hact hg2
      simp only [List.nil_append]
      unfold update_goal_progress
      rw [if_pos (show g.id = gid ∧ g.status = GoalStatus.active from ⟨hgid, hact⟩)]
      dsimp only
      rw [hg2]
    | cons p rest ih =>
      intro post g g2 hpre hgid hact hg2
      have hp : ¬(p.id = gid ∧ p.status = GoalStatus.active) :=
        hpre p (List.mem_cons_self p rest)
      have hih := ih post g g2 (fun x hx => hpre x (List.mem_cons_of_mem p hx)) hgid hact hg2
      simp only [List.cons_append]
      unfold update_goal_progress
      rw [if_neg hp]
      simp only [List.append_eq] at hih ⊢
      rw [hih]

/-- Witness for the amended C5 at the completed goal of the counterexample:
`update_goal_progress` on the completed (non-active) goal changes nothing
and returns none, and `cancel_goal` rewrites exactly that first (and only)
goal to cancelled with the date stamped, returning true. -/
theorem goal_status_transitions_witness :
    update_goal_progress
        [⟨1, "Trip", 500, 600, none, 0, GoalStatus.completed, false, some 0, none⟩]
        5 1 100 =
      ([⟨1, "Trip", 500, 600, none, 0, GoalStatus.completed, false, some 0, none⟩],
        none) ∧
    cancel_goal
        ([] ++ (⟨1, "Trip", 500, 600, none, 0, GoalStatus.completed, false, some 0, none⟩
          : Goal) :: []) 5 1 =
      ([] ++ (⟨1, "Trip", 500, 600, none, 0, GoalStatus.cancelled, false, some 0, some 5⟩
          : Goal) :: [], true) :=
  ⟨(goal_status_transitions 5 1 100).2.2.1
      [⟨1, "Trip", 500, 600, none, 0, GoalStatus.completed, false, some 0, none⟩]
      (by intro g hg; rw [List.mem_singleton] at hg; subst hg; simp),
    (goal_status_transitions 5 1 100).2.1 [] []
      ⟨1, "Trip", 500, 600, none, 0, GoalStatus.completed, false, some 0, none⟩
      (by intro p hp; cases hp) rfl⟩

theorem seqIds_succ (n : Nat) : seqIds (n + 1) = seqIds n ++ [(n : Int) + 1] := by
  unfold seqIds
  rw [List.range'_concat, List.map_append]
  simp only [one_mul, List.map_cons, List.map_nil]
  congr 2
  rw [Int.ofNat_eq_natCast]
  push_cast
  ring

theorem runAdds_ids :
    ∀ (ps : List (String × ℚ)) (goals : List Goal),
      goals.map Goal.id = seqIds goals.length →
      (runAdds goals ps).map Goal.id = seqIds (goals.length + ps.length)
  | [], goals, h => by simpa [runAdds] using h
  | p :: rest, goals, h => by
    have hstep : (runAdds goals (p :: rest)) =
        runAdds (goals ++ [(add_goal goals 0 p.1 p.2 none false).2]) rest := by
      simp [runAdds, add_goal]
    rw [hstep]
    have hlen : (goals ++ [(add_goal goals 0 p.1 p.2 none false).2]).length =
        goals.length + 1 := by simp
    have hnext : (goals ++ [(add_goal goals 0 p.1 p.2 none false).2]).map Goal.id =
        seqIds (goals ++ [(add_goal goals 0 p.1 p.2 none false).2]).length := by
      rw [List.map_append, h, hlen, seqIds_succ]
      rfl
    have hrec := runAdds_ids rest (goals ++ [(add_goal goals 0 p.1 p.2 none false).2]) hnext
    rw [hrec, hlen]
    congr 1
    simp only [List.length_cons]
    omega

/-- C6 counterexample: create goals "A" (id 1) and "B" (id 2), delete
id 1, create "C": because ids are assigned as `len(goals) + 1`, "C" gets
id 2 again — colliding with the still-present "B" — so ids are neither
unique among all goals ever created nor never-reused after a delete. -/
theorem goal_id_reuse_counterexample :
    ((add_goal
        (delete_goal
          (add_goal (add_goal [] 0 "A" 100 none false).1 0 "B" 100 none false).1
          (PyKey.int 1)).1
        0 "C" 100 none false).2).id = 2 ∧
    ((delete_goal
        (add_goal (add_goal [] 0 "A" 100 none false).1 0 "B" 100 none false).1
        (PyKey.int 1)).1).map Goal.id = [2] := by
  constructor
  · simp [add_goal, delete_goal, pyIsDigit]
  · simp [add_goal, delete_goal, pyIsDigit]

/-- C6 amended: `add_goal` assigns the id `len(goals) + 1`, so in any
delete-free history the ids are exactly the sequential integers 1..n —
unique and monotonically increasing; after a deletion, however, the next
assigned id repeats an existing one (see the counterexample). -/
theorem goal_ids_sequential :
    (∀ (goals : List Goal) (today : Nat) (name : String) (target : ℚ)
        (dl : Option String) (lk : Bool),
      ((add_goal goals today name target dl lk).2).id = (goals.length : Int) + 1) ∧
    (∀ ps : List (String × ℚ),
      (runAdds [] ps).map Goal.id = seqIds ps.length) := by
  constructor
  · intro goals today name target dl lk
    rfl
  · intro ps
    have := runAdds_ids ps [] (by simp [seqIds])
    simpa using this

/-- C7: contributing to an active goal whose progress would reach the
target sets the status to completed, stamps the completion date and sets
`current_amount` to exactly `current + amount` — not capped at the target.
(`update_goal_progress` acts on the goals store alone: in this embedding its
domain and codomain contain no balance, mirroring the source function,
which reads and writes only `goals.json` — it never touches the balance.) -/
theorem contribute_crossing_target (pre post : List Goal) (g g2 : Goal) (today : Nat)
    (a : ℚ)
    (hfirst : ∀ p ∈ pre, ¬(p.id = g.id ∧ p.status = GoalStatus.active))
    (hact : g.status = GoalStatus.active)
    (hcross : g.target_amount ≤ g.current_amount + a)
    (hg2 : g2 = { g with current_amount := g.current_amount + a, status := GoalStatus.completed, completed_date := some today }) :
    update_goal_progress (pre ++ g :: post) today g.id a = (pre ++ g2 :: post, some g2) := by
  subst hg2
  induction pre with
  | nil =>
    simp only [List.nil_append]
    unfold update_goal_progress
    rw [if_pos (show g.id = g.id ∧ g.status = GoalStatus.active from ⟨rfl, hact⟩)]
    simp only [ge_iff_le]
    rw [if_pos hcross]
  | cons p rest ih =>
    have hp : ¬(p.id = g.id ∧ p.status = GoalStatus.active) :=
      hfirst p (List.mem_cons_self p rest)
    have hih := ih (fun x hx => hfirst x (List.mem_cons_of_mem p hx))
    simp only [List.cons_append]
    unfold update_goal_progress
    rw [if_neg hp]
    simp only [List.append_eq] at hih ⊢
    rw [hih]

/-- Witness for C7: an active goal at 450 of 500 receives a contribution of
100 and ends completed at exactly 550. -/
theorem contribute_crossing_target_witness :
    update_goal_progress
        ([] ++ (⟨1, "Laptop", 500, 450, none, 0, GoalStatus.active, false, none, none⟩
          : Goal) :: []) 7 1 100 =
      ([] ++ (⟨1, "Laptop", 500, 450 + 100, none, 0, GoalStatus.completed, false, some 7,
          none⟩ : Goal) :: [],
        some ⟨1, "Laptop", 500, 450 + 100, none, 0, GoalStatus.completed, false, some 7,
          none⟩) :=
  contribute_crossing_target [] []
    ⟨1, "Laptop", 500, 450, none, 0, GoalStatus.active, false, none, none⟩
    ⟨1, "Laptop", 500, 450 + 100, none, 0, GoalStatus.completed, false, some 7, none⟩
    7 100
    (by intro p h; cases h) rfl
    (by show (500 : ℚ) ≤ 450 + 100; norm_num) rfl

theorem spendLoop_eq (sd ed : Nat) (cat : String) :
    ∀ (es : List Expense) (t : ℚ), spendLoop sd ed cat es t = t + spendSpec es sd ed cat
  | [], t => by simp [spendLoop, spendSpec]
  | ⟨edate, ecat, eamt, enote⟩ :: rest, t => by
    rcases edate with _ | d
    · show spendLoop sd ed cat rest t = _
      rw [spendLoop_eq sd ed cat rest t]
      unfold spendSpec
      rw [List.filter_cons]
      rw [if_neg (by simp)]
    · by_cases hin : sd ≤ d ∧ d ≤ ed
      · by_cases hcat : cat = "Overall" ∨ ecat = cat
        · show (if sd ≤ d ∧ d ≤ ed then
              if cat = "Overall" ∨ (⟨some d, ecat, eamt, enote⟩ : Expense).category = cat then
                spendLoop sd ed cat rest (t + eamt)
              else spendLoop sd ed cat rest t
            else spendLoop sd ed cat rest t) = _
          rw [if_pos hin, if_pos hcat, spendLoop_eq sd ed cat rest (t + eamt)]
          unfold spendSpec
          rw [List.filter_cons]
          rw [if_pos (by
            simp only [decide_eq_true_eq, Bool.and_eq_true, Bool.or_eq_true, beq_iff_eq]
            exact ⟨⟨hin.1, hin.2⟩, hcat⟩)]
          simp only [List.map_cons, List.sum_cons]
          ring
        · show (if sd ≤ d ∧ d ≤ ed then
              if cat = "Overall" ∨ (⟨some d, ecat, eamt, enote⟩ : Expense).category = cat then
                spendLoop sd ed cat rest (t + eamt)
              else spendLoop sd ed cat rest t
            else spendLoop sd ed cat rest t) = _
          rw [if_pos hin, if_neg hcat, spendLoop_eq sd ed cat rest t]
          unfold spendSpec
          rw [List.filter_cons]
          rw [if_neg (by
            simp only [decide_eq_true_eq, Bool.and_eq_true, Bool.or_eq_true, beq_iff_eq]
            exact fun hcon => hcat hcon.2)]
      · show (if sd ≤ d ∧ d ≤ ed then
            if cat = "Overall" ∨ (⟨some d, ecat, eamt, enote⟩ : Expense).category = cat then
              spendLoop sd ed cat rest (t + eamt)
            else spendLoop sd ed cat rest t
          else spendLoop sd ed cat rest t) = _
        rw [if_neg hin, spendLoop_eq sd ed cat rest t]
        unfold spendSpec
        rw [List.filter_cons]
        rw [if_neg (by
          simp only [decide_eq_true_eq, Bool.and_eq_true, Bool.or_eq_true, beq_iff_eq]
          exact fun hcon => hin hcon.1)]

theorem get_budget_status_is_exceeded (expenses : List Expense) (budget : Budget) :
    (get_budget_status expenses budget).is_exceeded =
      decide ((if budget.amount > 0
        then calculate_spending_for_budget expenses budget / budget.amount * 100
        else 0) ≥ 100) := rfl

theorem get_budget_status_status_level (expenses : List Expense) (budget : Budget) :
    (get_budget_status expenses budget).status_level =
      (if (if budget.amount > 0
          then calculate_spending_for_budget expenses budget / budget.amount * 100
          else 0) ≥ 100 then StatusLevel.exceeded
       else if (if budget.amount > 0
          then calculate_spending_for_budget expenses budget / budget.amount * 100
          else 0) ≥ budget.alert_threshold then StatusLevel.warning
       else if (if budget.amount > 0
          then calculate_spending_for_budget expenses budget / budget.amount * 100
          else 0) ≥ budget.alert_threshold * (1 / 2) then StatusLevel.caution
       else StatusLevel.safe) := rfl

theorem is_exceeded_iff (expenses : List Expense) (budget : Budget) :
    ((get_budget_status expenses budget).is_exceeded = true ↔
      0 < budget.amount ∧
        budget.amount ≤ calculate_spending_for_budget expenses budget) ∧
    ((get_budget_status expenses budget).status_level = StatusLevel.exceeded ↔
      0 < budget.amount ∧
        budget.amount ≤ calculate_spending_for_budget expenses budget) := by
  rw [get_budget_status_is_exceeded, get_budget_status_status_level]
  by_cases hpos : budget.amount > 0
  · have key : calculate_spending_for_budget expenses budget / budget.amount * 100 ≥ 100 ↔
        budget.amount ≤ calculate_spending_for_budget expenses budget := by
      rw [ge_iff_le, div_mul_eq_mul_div, le_div_iff₀ hpos]
      constructor
      · intro h; linarith
      · intro h; linarith
    rw [if_pos hpos]
    constructor
    · rw [decide_eq_true_eq, key]
      exact ⟨fun h => ⟨hpos, h⟩, fun h => h.2⟩
    · by_cases hex : calculate_spending_for_budget expenses budget / budget.amount * 100 ≥ 100
      · rw [if_pos hex]
        exact ⟨fun _ => ⟨hpos, key.mp hex⟩, fun _ => rfl⟩
      · rw [if_neg hex]
        have hrhs : ¬(0 < budget.amount ∧
            budget.amount ≤ calculate_spending_for_budget expenses budget) := by
          intro hc
          exact hex (key.mpr hc.2)
        split_ifs <;>
          exact ⟨fun h => absurd h (by simp), fun hc => absurd hc hrhs⟩
  · rw [if_neg hpos]
    have h0 : ¬((0 : ℚ) ≥ 100) := by norm_num
    have hrhs : ¬(0 < budget.amount ∧
        budget.amount ≤ calculate_spending_for_budget expenses budget) := fun hc => hpos hc.1
    constructor
    · rw [decide_eq_true_eq]
      exact ⟨fun h => absurd h h0, fun hc => absurd hc hrhs⟩
    · rw [if_neg h0]
      split_ifs <;>
        exact ⟨fun h => absurd h (by simp), fun hc => absurd hc hrhs⟩

/-- C8 counterexample: a budget with limit 0 (constructible, since
`add_budget` never validates the amount) over the window [0, 30] and an
in-window "Food" expense of 50: the spend (50) is at least 100% of the
limit (0), yet `get_budget_status` reports `is_exceeded = false` (its
percentage is defined as 0 whenever the limit is not positive), refuting
the claimed "exceeded iff spend ≥ 100% of limit" for every budget. -/
theorem budget_exceeded_zero_limit :
    (get_budget_status [⟨some 5, "Food", 50, ""⟩]
        ⟨1, "Overall", 0, "month", some 0, some 30, 80, BudgetStatus.active, 0⟩).is_exceeded
        = false ∧
    (⟨1, "Overall", 0, "month", some 0, some 30, 80, BudgetStatus.active, 0⟩ : Budget).amount
      ≤ calculate_spending_for_budget [⟨some 5, "Food", 50, ""⟩]
        ⟨1, "Overall", 0, "month", some 0, some 30, 80, BudgetStatus.active, 0⟩ := by
  constructor
  · rw [get_budget_status_is_exceeded]
    rw [if_neg (by norm_num)]
    rw [decide_eq_false_iff_not]
    norm_num
  · show (0 : ℚ) ≤ spendLoop 0 30 "Overall" [⟨some 5, "Food", 50, ""⟩] 0
    rw [spendLoop_eq]
    unfold spendSpec
    norm_num

/-- C8 amended: for every budget whose own date window parses, the computed
spend is exactly the sum of the amounts of the records whose date lies in
[start_date, end_date] and whose category matches (or the budget is
"Overall"), records with unparseable dates skipped; and the status is
reported exceeded (both `is_exceeded` and the `status_level`
classification) iff the limit is positive and the spend is at least the
limit — a non-positive limit is never reported exceeded. -/
theorem budget_status_spec (expenses : List Expense) (budget : Budget) (sd ed : Nat)
    (hsd : budget.start_date = some sd) (hed : budget.end_date = some ed) :
    calculate_spending_for_budget expenses budget =
      spendSpec expenses sd ed budget.category ∧
    ((get_budget_status expenses budget).is_exceeded = true ↔
      0 < budget.amount ∧
        budget.amount ≤ calculate_spending_for_budget expenses budget) ∧
    ((get_budget_status expenses budget).status_level = StatusLevel.exceeded ↔
      0 < budget.amount ∧
        budget.amount ≤ calculate_spending_for_budget expenses budget) := by
  refine ⟨?_, (is_exceeded_iff expenses budget).1, (is_exceeded_iff expenses budget).2⟩
  unfold calculate_spending_for_budget
  rw [hsd, hed]
  show spendLoop sd ed budget.category expenses 0 = spendSpec expenses sd ed budget.category
  rw [spendLoop_eq]
  ring

/-- Witness for the amended C8: an "Overall" budget of limit 40 over
[0, 30] against a single in-window expense of 50 — the spend matches the
spec-side sum and the status is exceeded since 0 < 40 ≤ 50. -/
theorem budget_status_spec_witness :
    calculate_spending_for_budget [⟨some 5, "Food", 50, ""⟩]
        ⟨1, "Overall", 40, "month", some 0, some 30, 80, BudgetStatus.active, 0⟩ =
      spendSpec [⟨some 5, "Food", 50, ""⟩] 0 30 "Overall" :=
  (budget_status_spec [⟨some 5, "Food", 50, ""⟩]
    ⟨1, "Overall", 40, "month", some 0, some 30, 80, BudgetStatus.active, 0⟩
    0 30 rfl rfl).1

theorem filterDelete_spec {α : Type} (l : List α) (p : α → Bool) :
    ((if (l.filter p).length < l.length then (l.filter p, true) else (l, false)) :
        List α × Bool).1 = l.filter p ∧
    (((if (l.filter p).length < l.length then (l.filter p, true) else (l, false)) :
        List α × Bool).2 = true ↔ ∃ x ∈ l, p x = false) := by
  by_cases hlt : (l.filter p).length < l.length
  · rw [if_pos hlt]
    refine ⟨rfl, ?_⟩
    simp only [true_iff]
    obtain ⟨x, hx, hpx⟩ := List.length_filter_lt_length_iff_exists.mp hlt
    exact ⟨x, hx, by simpa using hpx⟩
  · rw [if_neg hlt]
    have hall : ∀ x ∈ l, p x = true := by
      rw [List.length_filter_lt_length_iff_exists] at hlt
      push_neg at hlt
      intro x hx
      simpa using hlt x hx
    refine ⟨(List.filter_eq_self.mpr hall).symm, ?_⟩
    simp only [Bool.false_eq_true, false_iff]
    rintro ⟨x, hx, hpx⟩
    rw [hall x hx] at hpx
    cases hpx

/-- C9: the duck-typed delete dispatch. A non-digit string removes EVERY
goal whose name equals it (respectively every budget whose category equals
it), returning true iff at least one record was removed; an int — and
likewise an all-digit string after `int(...)` conversion — is matched
against ids instead. -/
theorem delete_by_key_spec (goals : List Goal) (budgets : List Budget) (s : String)
    (hs : pyIsDigit s = false) (k : Int) (ds : String) (hds : pyIsDigit ds = true) :
    (delete_goal goals (PyKey.str s)).1 = goals.filter (fun g => g.name ≠ s) ∧
    ((delete_goal goals (PyKey.str s)).2 = true ↔ ∃ g ∈ goals, g.name = s) ∧
    (delete_budget budgets (PyKey.str s)).1 = budgets.filter (fun b => b.category ≠ s) ∧
    ((delete_budget budgets (PyKey.str s)).2 = true ↔ ∃ b ∈ budgets, b.category = s) ∧
    (delete_goal goals (PyKey.int k)).1 = goals.filter (fun g => g.id ≠ k) ∧
    (delete_goal goals (PyKey.str ds)).1 =
      goals.filter (fun g => g.id ≠ ((ds.toNat?.getD 0 : Nat) : Int)) := by
  have hgs : delete_goal goals (PyKey.str s) =
      (if (goals.filter (fun g => g.name ≠ s)).length < goals.length
       then (goals.filter (fun g => g.name ≠ s), true) else (goals, false)) := by
    simp only [delete_goal, hs, Bool.false_eq_true, if_false, ite_false]
  have hbs : delete_budget budgets (PyKey.str s) =
      (if (budgets.filter (fun b => b.category ≠ s)).length < budgets.length
       then (budgets.filter (fun b => b.category ≠ s), true) else (budgets, false)) := by
    simp only [delete_budget, hs, Bool.false_eq_true, if_false, ite_false]
  have hgk : delete_goal goals (PyKey.int k) =
      (if (goals.filter (fun g => g.id ≠ k)).length < goals.length
       then (goals.filter (fun g => g.id ≠ k), true) else (goals, false)) := by
    simp only [delete_goal]
  have hgd : delete_goal goals (PyKey.str ds) =
      (if (goals.filter (fun g => g.id ≠ ((ds.toNat?.getD 0 : Nat) : Int))).length
            < goals.length
       then (goals.filter (fun g => g.id ≠ ((ds.toNat?.getD 0 : Nat) : Int)), true)
       else (goals, false)) := by
    simp only [delete_goal, hds, if_true, ite_true]
  refine ⟨?_, ?_, ?_, ?_, ?_, ?_⟩
  · rw [hgs]; exact (filterDelete_spec goals _).1
  · rw [hgs]
    rw [(filterDelete_spec goals (fun g => decide (g.name ≠ s))).2]
    simp
  · rw [hbs]; exact (filterDelete_spec budgets _).1
  · rw [hbs]
    rw [(filterDelete_spec budgets (fun b => decide (b.category ≠ s))).2]
    simp
  · rw [hgk]; exact (filterDelete_spec goals _).1
  · rw [hgd]; exact (filterDelete_spec goals _).1

/-- Witness for C9: one goal named "Food"; deleting with the non-digit
string "Food" reports a removal. -/
theorem delete_by_key_spec_witness :
    (delete_goal [⟨1, "Food", 100, 0, none, 0, GoalStatus.active, false, none, none⟩]
        (PyKey.str "Food")).2 = true :=
  ((delete_by_key_spec
      [⟨1, "Food", 100, 0, none, 0, GoalStatus.active, false, none, none⟩] []
      "Food" (by decide) 1 "12" (by decide)).2.1).mpr
    ⟨⟨1, "Food", 100, 0, none, 0, GoalStatus.active, false, none, none⟩,
      List.mem_singleton.mpr rfl, rfl⟩

/-- C10: every call to `get_active_budgets` rewrites the stored list —
each active budget whose end date parses to a day strictly before today is
switched to expired, all other records (including active budgets with
unparseable end dates) kept as they are — and returns exactly the budgets
that are active with a parseable end date on or after today. -/
theorem get_active_budgets_spec (budgets : List Budget) (today : Nat) :
    (get_active_budgets budgets today).1 = budgets.map (fun b =>
      if budgetExpiredBy today b then { b with status := BudgetStatus.expired } else b) ∧
    (get_active_budgets budgets today).2 = budgets.filter (budgetActiveOn today) := by
  induction budgets with
  | nil => exact ⟨rfl, rfl⟩
  | cons b rest ih =>
    obtain ⟨ih1, ih2⟩ := ih
    unfold get_active_budgets
    by_cases hst : b.status = BudgetStatus.active
    · rcases hed : b.end_date with _ | ed
      · simp only [hst, if_pos, hed, List.map_cons, List.filter_cons]
        rw [show budgetExpiredBy today b = false by simp [budgetExpiredBy, hst, hed]]
        rw [show budgetActiveOn today b = false by simp [budgetActiveOn, hst, hed]]
        simp only [Bool.false_eq_true, if_false, ite_false]
        exact ⟨by rw [ih1], by rw [ih2]⟩
      · by_cases hge : ed ≥ today
        · simp only [hst, if_pos, hed, hge, List.map_cons, List.filter_cons, ite_true]
          rw [show budgetExpiredBy today b = false by
            simp [budgetExpiredBy, hst, hed, Nat.not_lt.mpr hge]]
          rw [show budgetActiveOn today b = true by simp [budgetActiveOn, hst, hed, hge]]
          simp only [Bool.false_eq_true, if_false, ite_false, if_true, ite_true]
          exact ⟨by rw [ih1], by rw [ih2]⟩
        · simp only [hst, if_pos, hed, hge, List.map_cons, List.filter_cons,
            Bool.false_eq_true, if_false, ite_false]
          rw [show budgetExpiredBy today b = true by
            simp [budgetExpiredBy, hst, hed, Nat.lt_of_not_le (fun hc => hge hc)]]
          rw [show budgetActiveOn today b = false by
            simp [budgetActiveOn, hst, hed, fun hc => hge hc]]
          simp only [Bool.false_eq_true, if_false, ite_false, if_true, ite_true]
          exact ⟨by rw [ih1], by rw [ih2]⟩
    · simp only [hst, if_neg, not_false_iff, List.map_cons, List.filter_cons]
      rw [show budgetExpiredBy today b = false by simp [budgetExpiredBy, hst]]
      rw [show budgetActiveOn today b = false by simp [budgetActiveOn, hst]]
      simp only [Bool.false_eq_true, if_false, ite_false]
      exact ⟨by rw [ih1], by rw [ih2]⟩
